import Mathlib

/-!
Shallow embedding of gpsdate.c (sysmocom/gpsdate).

The program connects to gpsd with a bounded startup retry loop, reads fix
reports in an endless loop, validates each report (time field present,
status not no-fix, satellites used nonzero), and on the first acceptable
report sets the system clock once and exits; a lost connection triggers an
unbounded reconnect loop with a fixed one-second sleep.

The embedding models:
  - `callback` (gpsdate.c lines 52-103): the per-report validation and the
    single clock commit, as a pure decision `CallbackAction`;
  - `my_gps_mainloop` (lines 153-170): the read loop, driven by a script of
    environment events (timeout / read error / report);
  - the startup retry loop of `main` (lines 239-252), with the connect
    result variable `rc` modelled as `Option Int` (`none` = never assigned)
    to capture the uninitialized read when `num_retries < 1`;
  - the endless connected/reconnect state machine of `main` (lines 260-279),
    as a fuel-indexed trace-producing function `runMain`.

Observable side effects (connect attempts, sleeps, settimeofday, gps_close,
syslog of the committed time or the error, process exit) are recorded as a
trace of `Action`s.
-/

namespace Gpsdate

/-- TIME_SET flag bit from gps.h: marks the time field as populated in the
`set` bitmask of a gps_data_t update. -/
def TIME_SET : Nat := 2 ^ 2

/-- NUM_RETRIES macro, gpsdate.c line 46: default number of startup
connect attempts. -/
def NUM_RETRIES : Nat := 60

/-- RETRY_SLEEP macro, gpsdate.c line 47: seconds slept between failed
connect attempts; also the fixed reconnect-loop sleep (line 274). -/
def RETRY_SLEEP : Nat := 1

/-- Fix data of one update: `fix.time` is a double holding fractional
seconds since the epoch, modelled as a rational. -/
structure gps_fix_t where
  time : ℚ
  deriving DecidableEq

/-- The fields of gps_data_t that gpsdate reads: the `set` bitmask, the
fix, the fix status (0 = no fix) and the satellite-use count. -/
structure gps_data_t where
  set : Nat
  fix : gps_fix_t
  status : Nat
  satellites_used : Nat
  deriving DecidableEq

/-- Conversion of the double `fix.time` to `time_t` by the assignment
`tv.tv_sec = gpsdata->fix.time` (line 62): C truncation toward zero. -/
def truncSec (t : ℚ) : ℤ := t.num.tdiv t.den

/-- Outcome of one `callback` invocation: either the report is discarded
(the function returns and the read loop continues), or `settimeofday` is
called with the recorded `timeval`. -/
inductive CallbackAction where
  | reject
  | commit (tv_sec tv_usec : ℤ)
  deriving DecidableEq

/-- The validation part of `callback` (gpsdate.c lines 59-90): reject when
the time field is absent from the `set` bitmask, when `status == 0`
(no fix), or when `satellites_used == 0`; otherwise commit the fix time
truncated to whole seconds, with `tv_usec = 0` (line 64). -/
def callback (g : gps_data_t) : CallbackAction :=
  if g.set &&& TIME_SET = 0 then .reject
  else if g.status = 0 then .reject
  else if g.satellites_used = 0 then .reject
  else .commit (truncSec g.fix.time) 0

/-- Environment events driving the embedded process: read-loop events
(`gps_waiting` timing out, `gps_read` failing with a negative code, or a
parsed report) and reconnect-attempt outcomes (`gps_open` succeeding or
failing). -/
inductive EnvEvent where
  | timeout
  | readErr (rc : ℤ)
  | report (g : gps_data_t)
  | connectOk
  | connectFail
  deriving DecidableEq

/-- Observable side effects of the process, recorded in order. -/
inductive Action where
  | connectAct
  | sleepAct (secs : Nat)
  | settodAct (tv_sec tv_usec : ℤ)
  | closeAct
  | logNotice (tv_sec : ℤ)
  | logErr
  | exitAct (code : Nat)
  deriving DecidableEq

/-- Trace emitted by the commit path of `callback` (lines 90-102):
`settimeofday`, then `gps_close`, then on success the notice log of the
committed time and `exit(EXIT_SUCCESS)`, on failure the error log and
`exit(EXIT_FAILURE)`. `settod s = true` models `settimeofday` returning 0. -/
def commitActions (settod : ℤ → Bool) (s : ℤ) : List Action :=
  Action.settodAct s 0 :: Action.closeAct ::
    (if settod s then [Action.logNotice s, Action.exitAct 0]
     else [Action.logErr, Action.exitAct 1])

/-- Result of the read loop: the function returned `rc`, the process
exited inside `callback`, or the event script ran out while the loop was
still waiting (model artifact, also used when a connect event is met in
the connected state). -/
inductive MainloopResult where
  | ret (rc : ℤ)
  | exited
  | pending
  deriving DecidableEq

/-- The local read loop `my_gps_mainloop` (gpsdate.c lines 153-170): if
`gps_waiting` times out, return -1; if `gps_read` fails, return its
negative result; otherwise run the hook (`callback`) on the report and
loop. Returns the result, the actions emitted by the hook, and the
unconsumed remainder of the event script. -/
def my_gps_mainloop (settod : ℤ → Bool) :
    List EnvEvent → MainloopResult × List Action × List EnvEvent
  | [] => (.pending, [], [])
  | .timeout :: rest => (.ret (-1), [], rest)
  | .readErr rc :: rest => (.ret rc, [], rest)
  | .report g :: rest =>
    match callback g with
    | .reject => my_gps_mainloop settod rest
    | .commit s _ => (.exited, commitActions settod s, rest)
  | .connectOk :: rest => (.pending, [], EnvEvent.connectOk :: rest)
  | .connectFail :: rest => (.pending, [], EnvEvent.connectFail :: rest)

/-- The two states of the endless loop in `main` (gpsdate.c lines 188-191). -/
inductive State where
  | S_CONNECTED
  | S_RECONNECT
  deriving DecidableEq

/-- The endless connected/reconnect loop of `main` (gpsdate.c lines
260-279), producing the trace of observable actions. In `S_CONNECTED` the
read loop runs; a returned `rc < 1` logs, closes the handle and moves to
`S_RECONNECT`. In `S_RECONNECT`, `attempt_reconnect` is tried: on failure
the process sleeps the RETRY_SLEEP constant (line 274) and stays in
`S_RECONNECT`; on success it returns to `S_CONNECTED`. The `retry_sleep`
command-line value is in scope in `main` but unused by this loop. Fuel
bounds the number of loop iterations examined. -/
def runMain (settod : ℤ → Bool) (retry_sleep : Nat) :
    Nat → State → List EnvEvent → List Action
  | 0, _, _ => []
  | Nat.succ fuel, State.S_CONNECTED, evs =>
    match my_gps_mainloop settod evs with
    | (MainloopResult.ret rc, acts, rest) =>
      acts ++
        (if rc < 1 then
          Action.closeAct :: runMain settod retry_sleep fuel State.S_RECONNECT rest
         else runMain settod retry_sleep fuel State.S_CONNECTED rest)
    | (MainloopResult.exited, acts, _) => acts
    | (MainloopResult.pending, acts, _) => acts
  | Nat.succ fuel, State.S_RECONNECT, evs =>
    match evs with
    | EnvEvent.connectOk :: rest =>
      Action.connectAct :: runMain settod retry_sleep fuel State.S_CONNECTED rest
    | EnvEvent.connectFail :: rest =>
      Action.connectAct :: Action.sleepAct RETRY_SLEEP ::
        runMain settod retry_sleep fuel State.S_RECONNECT rest
    | _ => []

/-- Return code of `attempt_reconnect` (gpsdate.c lines 172-186): -1 when
`gps_open` fails, 0 on success. -/
def attempt_reconnect (ok : Bool) : ℤ := if ok then 0 else -1

/-- The startup retry loop of `main` (gpsdate.c lines 239-245):
`for (i = 1; i <= num_retries; i++) { rc = attempt_reconnect(...); if
(rc >= 0) break; sleep(retry_sleep); }`. `rem` is the number of remaining
iterations, `i` the attempt counter, and the third argument the current
value of `rc` (`none` while unassigned). `connectOk i` tells whether
attempt `i` succeeds. Returns the final `rc` and the emitted actions. -/
def startup_loop (retry_sleep : Nat) (connectOk : Nat → Bool) :
    Nat → Nat → Option ℤ → Option ℤ × List Action
  | 0, _, rc => (rc, [])
  | Nat.succ rem, i, _ =>
    let rc := attempt_reconnect (connectOk i)
    if 0 ≤ rc then (some rc, [Action.connectAct])
    else
      let r := startup_loop retry_sleep connectOk rem (i + 1) (some rc)
      (r.1, Action.connectAct :: Action.sleepAct retry_sleep :: r.2)

/-- The whole startup phase: run the loop from `i = 1` with `rc`
unassigned. -/
def startup (num_retries retry_sleep : Nat) (connectOk : Nat → Bool) :
    Option ℤ × List Action :=
  startup_loop retry_sleep connectOk num_retries 1 none

/-- What `main` does right after the startup loop (gpsdate.c lines
247-253): reading `rc` while it is still unassigned is an undefined
behaviour; otherwise `rc < 0` exits with EXIT_FAILURE and `rc >= 0`
proceeds to the connected state. -/
inductive StartupOutcome where
  | proceed
  | exit_failure
  | undefined_rc
  deriving DecidableEq

/-- Decision on the startup loop's final `rc` (gpsdate.c line 247). -/
def startup_decision : Option ℤ → StartupOutcome
  | none => .undefined_rc
  | some rc => if rc < 0 then .exit_failure else .proceed

/-- Predicate picking out `settodAct` actions. -/
def isSettod : Action → Bool
  | .settodAct _ _ => true
  | _ => false

/-- Predicate picking out `exitAct` actions. -/
def isExit : Action → Bool
  | .exitAct _ => true
  | _ => false

/-- Predicate picking out `connectAct` actions. -/
def isConnect : Action → Bool
  | .connectAct => true
  | _ => false

/-- Predicate picking out `sleepAct` actions. -/
def isSleep : Action → Bool
  | .sleepAct _ => true
  | _ => false

/-- Number of connect attempts recorded in a trace. -/
def countConnects (t : List Action) : Nat := t.countP isConnect

/-- Number of sleeps recorded in a trace. -/
def countSleeps (t : List Action) : Nat := t.countP isSleep

/-- A trace that contains neither a clock commit nor a process exit. -/
def cleanActs (t : List Action) : Prop :=
  ∀ a ∈ t, isSettod a = false ∧ isExit a = false

/-! Helper lemmas. -/

/-- On a nonnegative time the C truncation toward zero agrees with the
floor, so it is the whole-second part. -/
lemma truncSec_eq_floor (t : ℚ) (h : 0 ≤ t) : truncSec t = ⌊t⌋ := by
  rw [Rat.floor_def, truncSec,
    Int.tdiv_eq_ediv (Rat.num_nonneg.mpr h) (by positivity)]

/-- A report rejected by `callback` leaves no trace: the read loop simply
continues on the remaining events. -/
lemma mainloop_reject (settod : ℤ → Bool) (g : gps_data_t)
    (h : callback g = CallbackAction.reject) (rest : List EnvEvent) :
    my_gps_mainloop settod (EnvEvent.report g :: rest) =
      my_gps_mainloop settod rest := by
  simp only [my_gps_mainloop, h]

/-- Return value of a failed connect attempt. -/
lemma attempt_reconnect_false : attempt_reconnect false = -1 := rfl

/-- Return value of a successful connect attempt. -/
lemma attempt_reconnect_true : attempt_reconnect true = 0 := rfl

/-- Counting helper: connects and sleeps in a cons trace. -/
lemma counts_cons (a : Action) (t : List Action) :
    countConnects (a :: t) =
      countConnects t + (if isConnect a then 1 else 0) ∧
    countSleeps (a :: t) =
      countSleeps t + (if isSleep a then 1 else 0) := by
  simp [countConnects, countSleeps, List.countP_cons]

/-- A startup trace never contains more connect attempts or sleeps than
the remaining iteration budget. -/
lemma startup_loop_counts_le (s : Nat) (c : Nat → Bool) :
    ∀ (rem i : Nat) (rc₀ : Option ℤ),
      countConnects (startup_loop s c rem i rc₀).2 ≤ rem ∧
      countSleeps (startup_loop s c rem i rc₀).2 ≤ rem := by
  intro rem
  induction rem with
  | zero =>
    intro i rc₀
    simp [startup_loop, countConnects, countSleeps]
  | succ n ih =>
    intro i rc₀
    simp only [startup_loop]
    by_cases hok : (0 : ℤ) ≤ attempt_reconnect (c i)
    · rw [if_pos hok]
      simp [countConnects, countSleeps, isConnect, isSleep]
    · rw [if_neg hok]
      have h := ih (i + 1) (some (attempt_reconnect (c i)))
      have h1 := counts_cons (Action.sleepAct s)
        (startup_loop s c n (i + 1) (some (attempt_reconnect (c i)))).2
      have h2 := counts_cons Action.connectAct
        (Action.sleepAct s ::
          (startup_loop s c n (i + 1) (some (attempt_reconnect (c i)))).2)
      simp [isConnect, isSleep] at h1 h2
      simp only [h2.1, h2.2, h1.1, h1.2]
      omega

/-- When every connect attempt fails, the startup loop with a positive
budget ends with `rc = some (-1)` after one connect and one sleep per
iteration (the sleep also follows the last failed attempt). -/
lemma startup_loop_all_fail (s : Nat) (c : Nat → Bool)
    (hc : ∀ j, c j = false) :
    ∀ (rem i : Nat) (rc₀ : Option ℤ),
      (startup_loop s c rem i rc₀).1 =
        (if rem = 0 then rc₀ else some (-1)) ∧
      countConnects (startup_loop s c rem i rc₀).2 = rem ∧
      countSleeps (startup_loop s c rem i rc₀).2 = rem := by
  intro rem
  induction rem with
  | zero =>
    intro i rc₀
    simp [startup_loop, countConnects, countSleeps]
  | succ n ih =>
    intro i rc₀
    simp only [startup_loop, hc i, attempt_reconnect_false]
    rw [if_neg (by decide : ¬ (0 : ℤ) ≤ -1)]
    have h := ih (i + 1) (some (-1))
    have h1 := counts_cons (Action.sleepAct s)
      (startup_loop s c n (i + 1) (some (-1))).2
    have h2 := counts_cons Action.connectAct
      (Action.sleepAct s :: (startup_loop s c n (i + 1) (some (-1))).2)
    simp [isConnect, isSleep] at h1 h2
    refine ⟨?_, ?_⟩
    · rcases Nat.eq_zero_or_pos n with hn | hn
      · subst hn
        simp [startup_loop]
      · rw [h.1, if_neg (Nat.pos_iff_ne_zero.mp hn)]
        simp
    · simp only [h2.1, h2.2, h1.1, h1.2]
      omega

/-- When the attempts up to `k` fail and attempt `k` succeeds within the
budget, the startup loop ends with `rc = some 0` after `k - i + 1`
connects and `k - i` sleeps. -/
lemma startup_loop_first_success (s k : Nat) (c : Nat → Bool)
    (hfail : ∀ j, j < k → c j = false) (hk : c k = true) :
    ∀ (rem i : Nat) (rc₀ : Option ℤ), i ≤ k → k < i + rem →
      (startup_loop s c rem i rc₀).1 = some 0 ∧
      countConnects (startup_loop s c rem i rc₀).2 = k - i + 1 ∧
      countSleeps (startup_loop s c rem i rc₀).2 = k - i := by
  intro rem
  induction rem with
  | zero =>
    intro i rc₀ hik hki
    omega
  | succ n ih =>
    intro i rc₀ hik hki
    rcases Nat.lt_or_ge i k with hlt | hge
    · have hci : c i = false := hfail i hlt
      simp only [startup_loop, hci, attempt_reconnect_false]
      rw [if_neg (by decide : ¬ (0 : ℤ) ≤ -1)]
      have h := ih (i + 1) (some (-1)) (by omega) (by omega)
      have h1 := counts_cons (Action.sleepAct s)
        (startup_loop s c n (i + 1) (some (-1))).2
      have h2 := counts_cons Action.connectAct
        (Action.sleepAct s :: (startup_loop s c n (i + 1) (some (-1))).2)
      simp [isConnect, isSleep] at h1 h2
      refine ⟨h.1, ?_⟩
      simp only [h2.1, h2.2, h1.1, h1.2]
      omega
    · have hik2 : i = k := by omega
      subst hik2
      simp only [startup_loop, hk, attempt_reconnect_true]
      rw [if_pos (by decide : (0 : ℤ) ≤ 0)]
      simp [countConnects, countSleeps, isConnect, isSleep]

/-- Startup traces consist of connects and sleeps only: in particular no
clock-set action ever appears there. -/
lemma startup_loop_no_settod (s : Nat) (c : Nat → Bool) :
    ∀ (rem i : Nat) (rc₀ : Option ℤ),
      ∀ a ∈ (startup_loop s c rem i rc₀).2, isSettod a = false := by
  intro rem
  induction rem with
  | zero =>
    intro i rc₀ a ha
    simp [startup_loop] at ha
  | succ n ih =>
    intro i rc₀ a ha
    simp only [startup_loop] at ha
    by_cases hok : (0 : ℤ) ≤ attempt_reconnect (c i)
    · rw [if_pos hok] at ha
      simp only [List.mem_singleton] at ha
      subst ha
      rfl
    · rw [if_neg hok] at ha
      simp only [List.mem_cons] at ha
      rcases ha with ha | ha | ha
      · subst ha; rfl
      · subst ha; rfl
      · exact ih (i + 1) (some (attempt_reconnect (c i))) a ha

/-- If the loop runs at least one iteration, `rc` is assigned. -/
lemma startup_loop_assigns (s : Nat) (c : Nat → Bool) :
    ∀ (rem i : Nat) (rc₀ : Option ℤ), 1 ≤ rem →
      ∃ v, (startup_loop s c rem i rc₀).1 = some v := by
  intro rem
  induction rem with
  | zero =>
    intro i rc₀ h
    omega
  | succ n ih =>
    intro i rc₀ _
    simp only [startup_loop]
    by_cases hok : (0 : ℤ) ≤ attempt_reconnect (c i)
    · rw [if_pos hok]
      exact ⟨attempt_reconnect (c i), rfl⟩
    · rw [if_neg hok]
      rcases Nat.eq_zero_or_pos n with hn | hn
      · subst hn
        exact ⟨attempt_reconnect (c i), rfl⟩
      · exact ih (i + 1) (some (attempt_reconnect (c i))) hn

/-! Claims about the fix validation in `callback`. -/

/-- C1: a report with the time field present, status other than no-fix and
a nonzero satellite count is accepted, and the value handed to
`settimeofday` is the report's time truncated to whole seconds with the
microsecond field zero; for nonnegative times the committed second is the
whole-second part of the time (fractional part discarded). -/
theorem C1_validate_accepts (g : gps_data_t)
    (ht : g.set &&& TIME_SET ≠ 0) (hs : g.status ≠ 0)
    (hu : 0 < g.satellites_used) :
    callback g = CallbackAction.commit (truncSec g.fix.time) 0 ∧
      (0 ≤ g.fix.time →
        ((truncSec g.fix.time : ℚ) ≤ g.fix.time ∧
          g.fix.time < truncSec g.fix.time + 1)) := by
  refine ⟨?_, ?_⟩
  · unfold callback
    rw [if_neg ht, if_neg hs, if_neg (Nat.pos_iff_ne_zero.mp hu)]
  · intro h0
    rw [truncSec_eq_floor _ h0]
    exact ⟨Int.floor_le _, Int.lt_floor_add_one _⟩

/-- Witness for C1 at a concrete report with time 1700000000.5. -/
theorem C1_validate_accepts_witness :
    callback ⟨4, ⟨mkRat 3400000001 2⟩, 1, 4⟩ =
      CallbackAction.commit 1700000000 0 := by
  have h := C1_validate_accepts ⟨4, ⟨mkRat 3400000001 2⟩, 1, 4⟩
    (by decide) (by decide) (by decide)
  exact h.1.trans (by decide)

/-- C4: a report whose `set` bitmask lacks the time bit is rejected
whatever its status and satellite count, and the read loop continues with
no clock commit for that report. -/
theorem C4_no_time_rejected (g : gps_data_t)
    (h : g.set &&& TIME_SET = 0) :
    callback g = CallbackAction.reject ∧
      ∀ (settod : ℤ → Bool) (rest : List EnvEvent),
        my_gps_mainloop settod (EnvEvent.report g :: rest) =
          my_gps_mainloop settod rest := by
  have hr : callback g = CallbackAction.reject := by
    unfold callback
    rw [if_pos h]
  exact ⟨hr, fun settod rest => mainloop_reject settod g hr rest⟩

/-- Witness for C4 at a report with status fix and four satellites but no
time bit. -/
theorem C4_no_time_rejected_witness :
    callback ⟨0, ⟨mkRat 3400000001 2⟩, 1, 4⟩ = CallbackAction.reject ∧
      my_gps_mainloop (fun _ => true)
          [EnvEvent.report ⟨0, ⟨mkRat 3400000001 2⟩, 1, 4⟩] =
        my_gps_mainloop (fun _ => true) [] := by
  have h := C4_no_time_rejected ⟨0, ⟨mkRat 3400000001 2⟩, 1, 4⟩ (by decide)
  exact ⟨h.1, h.2 (fun _ => true) []⟩

/-- C5: a report whose status is the no-fix value 0 is rejected, also when
its time field is present and its satellite count is positive; the
rejection is non-fatal: the read loop continues on the remaining events
with no clock commit. -/
theorem C5_no_fix_rejected (g : gps_data_t) (h : g.status = 0) :
    callback g = CallbackAction.reject ∧
      ∀ (settod : ℤ → Bool) (rest : List EnvEvent),
        my_gps_mainloop settod (EnvEvent.report g :: rest) =
          my_gps_mainloop settod rest := by
  have hr : callback g = CallbackAction.reject := by
    unfold callback
    by_cases h1 : g.set &&& TIME_SET = 0
    · rw [if_pos h1]
    · rw [if_neg h1, if_pos h]
  exact ⟨hr, fun settod rest => mainloop_reject settod g hr rest⟩

/-- Witness for C5 at a report with time present and six satellites but
status 0. -/
theorem C5_no_fix_rejected_witness :
    callback ⟨4, ⟨mkRat 3400000001 2⟩, 0, 6⟩ = CallbackAction.reject ∧
      my_gps_mainloop (fun _ => true)
          [EnvEvent.report ⟨4, ⟨mkRat 3400000001 2⟩, 0, 6⟩] =
        my_gps_mainloop (fun _ => true) [] := by
  have h := C5_no_fix_rejected ⟨4, ⟨mkRat 3400000001 2⟩, 0, 6⟩ (by decide)
  exact ⟨h.1, h.2 (fun _ => true) []⟩

/-- C6: a report using zero satellites is rejected, also when its time
field is present and its status indicates a fix, and the read loop
continues with no clock commit for that report. -/
theorem C6_zero_satellites_rejected (g : gps_data_t)
    (h : g.satellites_used = 0) :
    callback g = CallbackAction.reject ∧
      ∀ (settod : ℤ → Bool) (rest : List EnvEvent),
        my_gps_mainloop settod (EnvEvent.report g :: rest) =
          my_gps_mainloop settod rest := by
  have hr : callback g = CallbackAction.reject := by
    unfold callback
    by_cases h1 : g.set &&& TIME_SET = 0
    · rw [if_pos h1]
    · rw [if_neg h1]
      by_cases h2 : g.status = 0
      · rw [if_pos h2]
      · rw [if_neg h2, if_pos h]
  exact ⟨hr, fun settod rest => mainloop_reject settod g hr rest⟩

/-- Witness for C6 at a report with time present and status dgps-fix but
zero satellites. -/
theorem C6_zero_satellites_rejected_witness :
    callback ⟨4, ⟨mkRat 3400000001 2⟩, 2, 0⟩ = CallbackAction.reject ∧
      my_gps_mainloop (fun _ => true)
          [EnvEvent.report ⟨4, ⟨mkRat 3400000001 2⟩, 2, 0⟩] =
        my_gps_mainloop (fun _ => true) [] := by
  have h := C6_zero_satellites_rejected ⟨4, ⟨mkRat 3400000001 2⟩, 2, 0⟩
    (by decide)
  exact ⟨h.1, h.2 (fun _ => true) []⟩

/-! Claims about the startup retry loop. -/

/-- C3 counterexample: with n = 3 and every connect attempt failing, the
startup phase exits with failure after exactly 3 connect attempts but
3 sleeps, not the 2 the claim states: the loop body sleeps after every
failed attempt, including the last one before exhaustion. -/
theorem C3_startup_counterexample :
    startup_decision (startup 3 1 (fun _ => false)).1 =
        StartupOutcome.exit_failure ∧
      countConnects (startup 3 1 (fun _ => false)).2 = 3 ∧
      countSleeps (startup 3 1 (fun _ => false)).2 = 3 ∧
      ¬ countSleeps (startup 3 1 (fun _ => false)).2 = 2 := by
  decide

/-- C3 amended: the startup policy with bound n makes at most n connect
attempts; if attempts below k fail and attempt k ≤ n succeeds, it proceeds
after exactly k attempts and k - 1 sleeps; if every attempt fails and
n ≥ 1, the process exits with failure after exactly n attempts and n
sleeps (one sleep follows every failed attempt, the last included), and no
clock-set action ever appears in the startup trace. -/
theorem C3_startup_retry (n s k : Nat) (c : Nat → Bool) :
    (countConnects (startup n s c).2 ≤ n ∧
      countSleeps (startup n s c).2 ≤ n) ∧
    (1 ≤ k → k ≤ n → (∀ i, i < k → c i = false) → c k = true →
      startup_decision (startup n s c).1 = StartupOutcome.proceed ∧
      countConnects (startup n s c).2 = k ∧
      countSleeps (startup n s c).2 = k - 1) ∧
    (1 ≤ n → (∀ i, c i = false) →
      startup_decision (startup n s c).1 = StartupOutcome.exit_failure ∧
      countConnects (startup n s c).2 = n ∧
      countSleeps (startup n s c).2 = n ∧
      ∀ a ∈ (startup n s c).2, isSettod a = false) := by
  have hs : startup n s c = startup_loop s c n 1 none := rfl
  rw [hs]
  refine ⟨startup_loop_counts_le s c n 1 none, ?_, ?_⟩
  · intro hk1 hkn hfail hck
    have h := startup_loop_first_success s k c hfail hck n 1 none
      hk1 (by omega)
    have hc1 := h.2.1
    have hc2 := h.2.2
    refine ⟨?_, by omega, by omega⟩
    rw [h.1]
    decide
  · intro hn1 hall
    have h := startup_loop_all_fail s c hall n 1 none
    have h1 : (startup_loop s c n 1 none).1 = some (-1) := by
      rw [h.1, if_neg (by omega)]
    exact ⟨by rw [h1]; decide, h.2.1, h.2.2,
      startup_loop_no_settod s c n 1 none⟩

/-- Witness for C3 at n = 3: connect fails on attempt 1 and succeeds on
attempt 2 (2 attempts, 1 sleep, proceed), and separately all attempts
fail (3 attempts, 3 sleeps, failure exit). -/
theorem C3_startup_retry_witness :
    (startup_decision (startup 3 1 (fun i => decide (2 ≤ i))).1 =
        StartupOutcome.proceed ∧
      countConnects (startup 3 1 (fun i => decide (2 ≤ i))).2 = 2 ∧
      countSleeps (startup 3 1 (fun i => decide (2 ≤ i))).2 = 1) ∧
    (startup_decision (startup 3 5 (fun _ => false)).1 =
        StartupOutcome.exit_failure ∧
      countConnects (startup 3 5 (fun _ => false)).2 = 3 ∧
      countSleeps (startup 3 5 (fun _ => false)).2 = 3) := by
  refine ⟨?_, ?_⟩
  · have h := (C3_startup_retry 3 1 2 (fun i => decide (2 ≤ i))).2.1
      (by decide) (by decide) (by decide) (by decide)
    exact ⟨h.1, h.2.1, h.2.2⟩
  · have h := (C3_startup_retry 3 5 2 (fun _ => false)).2.2
      (by decide) (fun _ => rfl)
    exact ⟨h.1, h.2.1, h.2.2.1⟩

/-- C10: with a retry count below 1 the startup loop makes no connect
attempt and leaves `rc` unassigned, so the decision that follows reads an
uninitialized variable (undefined behaviour); with any retry count of at
least 1, `rc` is always assigned before being read. -/
theorem C10_zero_retries_undefined (s : Nat) (c : Nat → Bool) :
    (startup 0 s c = (none, []) ∧
      startup_decision (startup 0 s c).1 = StartupOutcome.undefined_rc) ∧
    ∀ n, 1 ≤ n → ∃ v, (startup n s c).1 = some v := by
  refine ⟨⟨rfl, rfl⟩, ?_⟩
  intro n hn
  exact startup_loop_assigns s c n 1 none hn

/-- Witness for C10 with every connect attempt failing: zero retries leave
`rc` unassigned, one retry assigns it. -/
theorem C10_zero_retries_undefined_witness :
    (startup 0 1 (fun _ => false) = (none, []) ∧
      startup_decision (startup 0 1 (fun _ => false)).1 =
        StartupOutcome.undefined_rc) ∧
    ∃ v, (startup 1 1 (fun _ => false)).1 = some v := by
  have h := C10_zero_retries_undefined 1 (fun _ => false)
  exact ⟨h.1, h.2 1 (by decide)⟩

/-! Helper lemmas for the endless connected/reconnect loop. -/

/-- The read loop emits no action unless the process exits inside
`callback`, in which case its actions are exactly one commit sequence. -/
lemma mainloop_acts (settod : ℤ → Bool) (evs : List EnvEvent) :
    ((my_gps_mainloop settod evs).1 = MainloopResult.exited →
      ∃ s, (my_gps_mainloop settod evs).2.1 = commitActions settod s) ∧
    ((my_gps_mainloop settod evs).1 ≠ MainloopResult.exited →
      (my_gps_mainloop settod evs).2.1 = []) := by
  induction evs with
  | nil => simp [my_gps_mainloop]
  | cons e rest ih =>
    cases e with
    | timeout => simp [my_gps_mainloop]
    | readErr rc => simp [my_gps_mainloop]
    | report g =>
      cases hcb : callback g with
      | reject =>
        simpa [my_gps_mainloop, hcb] using ih
      | commit s u =>
        refine ⟨fun _ => ⟨s, ?_⟩, fun hne => absurd ?_ hne⟩
        · simp [my_gps_mainloop, hcb]
        · simp [my_gps_mainloop, hcb]
    | connectOk => simp [my_gps_mainloop]
    | connectFail => simp [my_gps_mainloop]

/-- Every trace of the endless loop is either free of commits and exits,
or is a clean prefix followed by exactly one commit sequence that ends the
trace. -/
lemma runMain_shape (settod : ℤ → Bool) (rs : Nat) :
    ∀ (fuel : Nat) (st : State) (evs : List EnvEvent),
      cleanActs (runMain settod rs fuel st evs) ∨
      ∃ pre s, cleanActs pre ∧
        runMain settod rs fuel st evs = pre ++ commitActions settod s := by
  intro fuel
  induction fuel with
  | zero =>
    intro st evs
    left
    intro a ha
    simp [runMain] at ha
  | succ f ih =>
    intro st evs
    cases st with
    | S_CONNECTED =>
      rcases hm : my_gps_mainloop settod evs with ⟨res, acts, rest⟩
      cases res with
      | ret rc =>
        have hacts : acts = [] := by
          have h := (mainloop_acts settod evs).2 (by rw [hm]; simp)
          rw [hm] at h
          exact h
        subst hacts
        simp only [runMain, hm, List.nil_append]
        by_cases hrc : rc < 1
        · rw [if_pos hrc]
          rcases ih State.S_RECONNECT rest with hc | ⟨pre, s, hcp, heq⟩
          · left
            intro a ha
            rcases List.mem_cons.mp ha with ha | ha
            · subst ha; exact ⟨rfl, rfl⟩
            · exact hc a ha
          · right
            refine ⟨Action.closeAct :: pre, s, ?_,
              by rw [heq, List.cons_append]⟩
            intro a ha
            rcases List.mem_cons.mp ha with ha | ha
            · subst ha; exact ⟨rfl, rfl⟩
            · exact hcp a ha
        · rw [if_neg hrc]
          exact ih State.S_CONNECTED rest
      | exited =>
        have h := (mainloop_acts settod evs).1 (by rw [hm])
        rw [hm] at h
        rcases h with ⟨s, hacts⟩
        right
        refine ⟨[], s, by intro a ha; simp at ha, ?_⟩
        simp only [runMain, hm, List.nil_append]
        exact hacts
      | pending =>
        have h := (mainloop_acts settod evs).2 (by rw [hm]; simp)
        rw [hm] at h
        left
        have h2 : acts = [] := h
        have hrw : runMain settod rs (Nat.succ f) State.S_CONNECTED evs
            = [] := by
          simp only [runMain, hm, h2]
        rw [hrw]
        intro a ha
        exact absurd ha (List.not_mem_nil a)
    | S_RECONNECT =>
      match evs with
      | [] =>
        left
        intro a ha
        simp [runMain] at ha
      | EnvEvent.connectOk :: rest =>
        rcases ih State.S_CONNECTED rest with hc | ⟨pre, s, hcp, heq⟩
        · left
          intro a ha
          simp only [runMain] at ha
          rcases List.mem_cons.mp ha with ha | ha
          · subst ha; exact ⟨rfl, rfl⟩
          · exact hc a ha
        · right
          refine ⟨Action.connectAct :: pre, s, ?_, ?_⟩
          · intro a ha
            rcases List.mem_cons.mp ha with ha | ha
            · subst ha; exact ⟨rfl, rfl⟩
            · exact hcp a ha
          · simp only [runMain, heq, List.cons_append]
      | EnvEvent.connectFail :: rest =>
        rcases ih State.S_RECONNECT rest with hc | ⟨pre, s, hcp, heq⟩
        · left
          intro a ha
          simp only [runMain] at ha
          rcases List.mem_cons.mp ha with ha | ha
          · subst ha; exact ⟨rfl, rfl⟩
          · rcases List.mem_cons.mp ha with ha | ha
            · subst ha; exact ⟨rfl, rfl⟩
            · exact hc a ha
        · right
          refine ⟨Action.connectAct :: Action.sleepAct RETRY_SLEEP :: pre,
            s, ?_, ?_⟩
          · intro a ha
            rcases List.mem_cons.mp ha with ha | ha
            · subst ha; exact ⟨rfl, rfl⟩
            · rcases List.mem_cons.mp ha with ha | ha
              · subst ha; exact ⟨rfl, rfl⟩
              · exact hcp a ha
          · simp only [runMain, heq, List.cons_append]
      | EnvEvent.timeout :: rest =>
        left
        intro a ha
        simp [runMain] at ha
      | EnvEvent.readErr rc :: rest =>
        left
        intro a ha
        simp [runMain] at ha
      | EnvEvent.report g :: rest =>
        left
        intro a ha
        simp [runMain] at ha

/-- Unique decomposition of a list at a marked element when everything on
both sides of one decomposition is unmarked. -/
lemma marked_split_unique {α : Type} (p : α → Bool) :
    ∀ (pre₂ pre₁ : List α) (x₁ : α) (post₁ : List α) (x₂ : α)
      (post₂ : List α),
      p x₁ = true → p x₂ = true →
      (∀ a ∈ pre₂, p a = false) → (∀ a ∈ post₂, p a = false) →
      pre₁ ++ x₁ :: post₁ = pre₂ ++ x₂ :: post₂ →
      pre₁ = pre₂ ∧ x₁ = x₂ ∧ post₁ = post₂ := by
  intro pre₂
  induction pre₂ with
  | nil =>
    intro pre₁ x₁ post₁ x₂ post₂ hp1 hp2 hpre hpost heq
    cases pre₁ with
    | nil =>
      simp only [List.nil_append, List.cons.injEq] at heq
      exact ⟨rfl, heq.1, heq.2⟩
    | cons a t =>
      simp only [List.nil_append, List.cons_append, List.cons.injEq] at heq
      exfalso
      have hx1 : x₁ ∈ post₂ := by
        rw [← heq.2]
        exact List.mem_append_right t (List.mem_cons_self x₁ post₁)
      rw [hpost x₁ hx1] at hp1
      exact Bool.false_ne_true hp1
  | cons b pre₂' ih =>
    intro pre₁ x₁ post₁ x₂ post₂ hp1 hp2 hpre hpost heq
    cases pre₁ with
    | nil =>
      simp only [List.nil_append, List.cons_append, List.cons.injEq] at heq
      exfalso
      have hb : p b = false := hpre b (List.mem_cons_self b pre₂')
      rw [← heq.1, hp1] at hb
      simp at hb
    | cons a t =>
      simp only [List.cons_append, List.cons.injEq] at heq
      have h := ih t x₁ post₁ x₂ post₂ hp1 hp2
        (fun a ha => hpre a (List.mem_cons_of_mem b ha)) hpost heq.2
      exact ⟨by rw [heq.1, h.1], h.2.1, h.2.2⟩

/-- The part of a commit sequence after the `settimeofday` action holds no
further clock commit. -/
lemma commitActions_tail_no_settod (settod : ℤ → Bool) (s : ℤ) :
    ∀ a ∈ (Action.closeAct ::
      (if settod s then [Action.logNotice s, Action.exitAct 0]
       else [Action.logErr, Action.exitAct 1])), isSettod a = false := by
  intro a ha
  rcases List.mem_cons.mp ha with rfl | ha
  · rfl
  · cases hset : settod s
    · rw [hset] at ha
      simp at ha
      rcases ha with rfl | rfl <;> rfl
    · rw [hset] at ha
      simp at ha
      rcases ha with rfl | rfl <;> rfl

/-- Decomposition of a trace ending in a commit sequence at its exit
action: the exit is the last action and everything before the three
preceding commit actions is the clean prefix. -/
lemma exit_decomp_aux (pre pre' post : List Action) (code : Nat)
    (a1 a2 a3 : Action) (code' : Nat) (hcp : cleanActs pre')
    (h1 : isExit a1 = false) (h2 : isExit a2 = false)
    (h3 : isExit a3 = false)
    (h : pre ++ Action.exitAct code :: post =
      pre' ++ [a1, a2, a3, Action.exitAct code']) :
    post = [] ∧ pre = pre' ++ [a1, a2, a3] ∧ code = code' := by
  have hassoc : pre' ++ [a1, a2, a3, Action.exitAct code'] =
      (pre' ++ [a1, a2, a3]) ++ Action.exitAct code' :: [] :=
    (List.append_assoc pre' [a1, a2, a3] [Action.exitAct code']).symm
  rw [hassoc] at h
  have hsplit := marked_split_unique isExit (pre' ++ [a1, a2, a3]) pre
    (Action.exitAct code) post (Action.exitAct code') [] rfl rfl
    (by
      intro a ha
      rcases List.mem_append.mp ha with ha | ha
      · exact (hcp a ha).2
      · simp only [List.mem_cons, List.mem_singleton,
          List.not_mem_nil, or_false] at ha
        rcases ha with rfl | rfl | rfl
        · exact h1
        · exact h2
        · exact h3)
    (fun a ha => absurd ha (List.not_mem_nil a)) h
  refine ⟨hsplit.2.2, hsplit.1, ?_⟩
  injection hsplit.2.1

/-- An all-failing reconnect script keeps the machine in `S_RECONNECT`
forever: within any fuel bound the trace is nothing but connect attempts
each followed by the fixed RETRY_SLEEP sleep. -/
lemma runMain_reconnect_forever (settod : ℤ → Bool) (rs : Nat) :
    ∀ (fuel m : Nat),
      runMain settod rs fuel State.S_RECONNECT
          (List.replicate m EnvEvent.connectFail) =
        (List.replicate (min fuel m)
          [Action.connectAct, Action.sleepAct RETRY_SLEEP]).flatten := by
  intro fuel
  induction fuel with
  | zero =>
    intro m
    simp [runMain, Nat.zero_min]
  | succ f ih =>
    intro m
    cases m with
    | zero =>
      simp [runMain, Nat.min_zero]
    | succ n =>
      rw [List.replicate_succ]
      show Action.connectAct :: Action.sleepAct RETRY_SLEEP ::
          runMain settod rs f State.S_RECONNECT
            (List.replicate n EnvEvent.connectFail) = _
      rw [ih n, Nat.succ_min_succ, List.replicate_succ, List.flatten_cons]
      rfl

/-! Claims about the connected/reconnect state machine. -/

/-- C2: wherever a clock commit appears in a trace of the endless loop,
its microsecond argument is 0, nothing before it is a commit or an exit
(the commit happens at most once and nothing was committed earlier), and
it is immediately followed by closing the connection and then, on
`settimeofday` success, logging the committed time and exiting with
status 0, and on failure logging the error and exiting with status 1 —
the trace ends there, so no retry of the clock set and no further report
processing occur. -/
theorem C2_commit_once_then_exit (settod : ℤ → Bool) (rs fuel : Nat)
    (st : State) (evs : List EnvEvent) (pre post : List Action)
    (s u : ℤ)
    (h : runMain settod rs fuel st evs =
      pre ++ Action.settodAct s u :: post) :
    u = 0 ∧
    (∀ a ∈ pre, isSettod a = false ∧ isExit a = false) ∧
    post = Action.closeAct ::
      (if settod s then [Action.logNotice s, Action.exitAct 0]
       else [Action.logErr, Action.exitAct 1]) := by
  rcases runMain_shape settod rs fuel st evs with hc | ⟨pre', s', hcp, heq⟩
  · exfalso
    have hmem : Action.settodAct s u ∈ runMain settod rs fuel st evs := by
      rw [h]
      exact List.mem_append_right pre (List.mem_cons_self _ _)
    have hfalse := (hc _ hmem).1
    simp [isSettod] at hfalse
  · rw [heq] at h
    have hsplit := marked_split_unique isSettod pre' pre
      (Action.settodAct s u) post (Action.settodAct s' 0)
      (Action.closeAct ::
        (if settod s' then [Action.logNotice s', Action.exitAct 0]
         else [Action.logErr, Action.exitAct 1]))
      rfl rfl (fun a ha => (hcp a ha).1)
      (commitActions_tail_no_settod settod s') h.symm
    obtain ⟨hpre, hx, hpost⟩ := hsplit
    have hs : s = s' := by injection hx with h1 h2
    have hu : u = 0 := by injection hx with h1 h2
    refine ⟨hu, ?_, ?_⟩
    · rw [hpre]
      exact hcp
    · rw [hpost, hs]

/-- Witness for C2: a single valid report, successful clock set. -/
theorem C2_commit_once_then_exit_witness :
    (0 : ℤ) = 0 ∧
    (∀ a ∈ ([] : List Action), isSettod a = false ∧ isExit a = false) ∧
    ([Action.closeAct, Action.logNotice 1700000000, Action.exitAct 0]
        : List Action) =
      Action.closeAct ::
        (if (fun _ : ℤ => true) 1700000000 then
          [Action.logNotice 1700000000, Action.exitAct 0]
         else [Action.logErr, Action.exitAct 1]) :=
  C2_commit_once_then_exit (fun _ => true) 0 1 State.S_CONNECTED
    [EnvEvent.report ⟨4, ⟨mkRat 3400000001 2⟩, 1, 4⟩]
    [] [Action.closeAct, Action.logNotice 1700000000, Action.exitAct 0]
    1700000000 0 (by decide)

/-- C7: both connection-loss variants make the read loop return a
negative value — a `gps_waiting` timeout returns -1 and a failed
`gps_read` returns its negative code — and in the `S_CONNECTED` state
either variant makes `main` close the handle and continue in
`S_RECONNECT` instead of terminating. -/
theorem C7_connection_loss_reconnects (settod : ℤ → Bool)
    (rs fuel : Nat) (rc : ℤ) (hrc : rc < 0) (rest : List EnvEvent) :
    (my_gps_mainloop settod (EnvEvent.timeout :: rest) =
        (MainloopResult.ret (-1), [], rest) ∧ (-1 : ℤ) < 0) ∧
    (my_gps_mainloop settod (EnvEvent.readErr rc :: rest) =
        (MainloopResult.ret rc, [], rest) ∧ rc < 0) ∧
    runMain settod rs (fuel + 1) State.S_CONNECTED
        (EnvEvent.timeout :: rest) =
      Action.closeAct :: runMain settod rs fuel State.S_RECONNECT rest ∧
    runMain settod rs (fuel + 1) State.S_CONNECTED
        (EnvEvent.readErr rc :: rest) =
      Action.closeAct :: runMain settod rs fuel State.S_RECONNECT rest := by
  refine ⟨⟨rfl, by decide⟩, ⟨rfl, hrc⟩, ?_, ?_⟩
  · have hred : runMain settod rs (fuel + 1) State.S_CONNECTED
        (EnvEvent.timeout :: rest) =
      [] ++ (if (-1 : ℤ) < 1 then
          Action.closeAct :: runMain settod rs fuel State.S_RECONNECT rest
        else runMain settod rs fuel State.S_CONNECTED rest) := rfl
    rw [hred, if_pos (by omega : (-1 : ℤ) < 1), List.nil_append]
  · have hred : runMain settod rs (fuel + 1) State.S_CONNECTED
        (EnvEvent.readErr rc :: rest) =
      [] ++ (if rc < 1 then
          Action.closeAct :: runMain settod rs fuel State.S_RECONNECT rest
        else runMain settod rs fuel State.S_CONNECTED rest) := rfl
    rw [hred, if_pos (by omega : rc < 1), List.nil_append]

/-- Witness for C7 with read error code -2 and an empty remaining
script. -/
theorem C7_connection_loss_reconnects_witness :
    my_gps_mainloop (fun _ => true) [EnvEvent.timeout] =
        (MainloopResult.ret (-1), [], []) ∧
    runMain (fun _ => true) 1 1 State.S_CONNECTED
        [EnvEvent.readErr (-2)] =
      Action.closeAct ::
        runMain (fun _ => true) 1 0 State.S_RECONNECT [] := by
  have h := C7_connection_loss_reconnects (fun _ => true) 1 0 (-2)
    (by decide) []
  exact ⟨h.1.1, h.2.2.2⟩

/-- C8: once the endless loop is running, connection failures never end
the process: any exit action in a trace is the trace's last action and is
preceded by a clock commit, and an all-failing reconnect script keeps the
machine retrying forever, one connect attempt and one fixed sleep per
iteration, for any fuel bound. -/
theorem C8_no_exit_without_commit (settod : ℤ → Bool) (rs fuel : Nat)
    (st : State) (evs : List EnvEvent) :
    (∀ (pre : List Action) (code : Nat) (post : List Action),
      runMain settod rs fuel st evs =
        pre ++ Action.exitAct code :: post →
      post = [] ∧ ∃ s, Action.settodAct s 0 ∈ pre) ∧
    (∀ m, runMain settod rs fuel State.S_RECONNECT
        (List.replicate m EnvEvent.connectFail) =
      (List.replicate (min fuel m)
        [Action.connectAct, Action.sleepAct RETRY_SLEEP]).flatten) := by
  refine ⟨?_, runMain_reconnect_forever settod rs fuel⟩
  intro pre code post h
  rcases runMain_shape settod rs fuel st evs with hc | ⟨pre', s', hcp, heq⟩
  · exfalso
    have hmem : Action.exitAct code ∈ runMain settod rs fuel st evs := by
      rw [h]
      exact List.mem_append_right pre (List.mem_cons_self _ _)
    have hfalse := (hc _ hmem).2
    simp [isExit] at hfalse
  · rw [heq] at h
    cases hset : settod s'
    · have hrw : commitActions settod s' =
          [Action.settodAct s' 0, Action.closeAct, Action.logErr,
            Action.exitAct 1] := by
        simp [commitActions, hset]
      rw [hrw] at h
      have hd := exit_decomp_aux pre pre' post code
        (Action.settodAct s' 0) Action.closeAct Action.logErr 1
        hcp rfl rfl rfl h.symm
      refine ⟨hd.1, s', ?_⟩
      rw [hd.2.1]
      exact List.mem_append_right pre' (List.mem_cons_self _ _)
    · have hrw : commitActions settod s' =
          [Action.settodAct s' 0, Action.closeAct, Action.logNotice s',
            Action.exitAct 0] := by
        simp [commitActions, hset]
      rw [hrw] at h
      have hd := exit_decomp_aux pre pre' post code
        (Action.settodAct s' 0) Action.closeAct (Action.logNotice s') 0
        hcp rfl rfl rfl h.symm
      refine ⟨hd.1, s', ?_⟩
      rw [hd.2.1]
      exact List.mem_append_right pre' (List.mem_cons_self _ _)

/-- Witness for C8: the exit after a successful commit ends the trace,
and two failed reconnect attempts under fuel 5 give exactly two
connect/sleep pairs. -/
theorem C8_no_exit_without_commit_witness :
    (([] : List Action) = [] ∧
      ∃ s, Action.settodAct s 0 ∈
        ([Action.settodAct 1700000000 0, Action.closeAct,
          Action.logNotice 1700000000] : List Action)) ∧
    runMain (fun _ => true) 7 5 State.S_RECONNECT
        (List.replicate 2 EnvEvent.connectFail) =
      (List.replicate (min 5 2)
        [Action.connectAct, Action.sleepAct RETRY_SLEEP]).flatten := by
  have h1 := C8_no_exit_without_commit (fun _ => true) 7 1
    State.S_CONNECTED [EnvEvent.report ⟨4, ⟨mkRat 3400000001 2⟩, 1, 4⟩]
  have h2 := C8_no_exit_without_commit (fun _ => true) 7 5
    State.S_RECONNECT (List.replicate 2 EnvEvent.connectFail)
  exact ⟨h1.1 [Action.settodAct 1700000000 0, Action.closeAct,
    Action.logNotice 1700000000] 0 [] (by decide), h2.2 2⟩

/-- The read loop's actions contain no sleep. -/
lemma mainloop_no_sleep (settod : ℤ → Bool) :
    ∀ (evs : List EnvEvent) (m : Nat),
      Action.sleepAct m ∉ (my_gps_mainloop settod evs).2.1 := by
  intro evs
  induction evs with
  | nil =>
    intro m hm
    simp [my_gps_mainloop] at hm
  | cons e rest ih =>
    cases e with
    | timeout => intro m hm; simp [my_gps_mainloop] at hm
    | readErr rc => intro m hm; simp [my_gps_mainloop] at hm
    | report g =>
      intro m hm
      cases hcb : callback g with
      | reject =>
        rw [mainloop_reject settod g hcb rest] at hm
        exact ih m hm
      | commit s u =>
        have hacts : (my_gps_mainloop settod
            (EnvEvent.report g :: rest)).2.1 = commitActions settod s := by
          simp [my_gps_mainloop, hcb]
        rw [hacts] at hm
        rcases List.mem_cons.mp hm with hm | hm
        · exact Action.noConfusion hm
        · rcases List.mem_cons.mp hm with hm | hm
          · exact Action.noConfusion hm
          · cases hset : settod s <;> rw [hset] at hm <;> simp at hm
    | connectOk => intro m hm; simp [my_gps_mainloop] at hm
    | connectFail => intro m hm; simp [my_gps_mainloop] at hm

/-- The endless loop's trace does not depend on the `retry_sleep`
command-line value. -/
lemma runMain_rs_irrelevant (settod : ℤ → Bool) :
    ∀ (fuel rs₁ rs₂ : Nat) (st : State) (evs : List EnvEvent),
      runMain settod rs₁ fuel st evs = runMain settod rs₂ fuel st evs := by
  intro fuel
  induction fuel with
  | zero => intro rs₁ rs₂ st evs; rfl
  | succ f ih =>
    intro rs₁ rs₂ st evs
    cases st with
    | S_CONNECTED =>
      rcases hm : my_gps_mainloop settod evs with ⟨res, acts, rest⟩
      cases res with
      | ret rc =>
        simp only [runMain, hm]
        by_cases hrc : rc < 1
        · rw [if_pos hrc, if_pos hrc, ih rs₁ rs₂ State.S_RECONNECT rest]
        · rw [if_neg hrc, if_neg hrc, ih rs₁ rs₂ State.S_CONNECTED rest]
      | exited => simp only [runMain, hm]
      | pending => simp only [runMain, hm]
    | S_RECONNECT =>
      cases evs with
      | nil => rfl
      | cons e rest =>
        cases e with
        | connectOk =>
          simp only [runMain]
          rw [ih rs₁ rs₂ State.S_CONNECTED rest]
        | connectFail =>
          simp only [runMain]
          rw [ih rs₁ rs₂ State.S_RECONNECT rest]
        | timeout => rfl
        | readErr rc => rfl
        | report g => rfl

/-- Every sleep in the endless loop's trace is the fixed RETRY_SLEEP. -/
lemma runMain_sleep_fixed (settod : ℤ → Bool) (rs : Nat) :
    ∀ (fuel : Nat) (st : State) (evs : List EnvEvent) (m : Nat),
      Action.sleepAct m ∈ runMain settod rs fuel st evs →
        m = RETRY_SLEEP := by
  intro fuel
  induction fuel with
  | zero =>
    intro st evs m hm
    simp [runMain] at hm
  | succ f ih =>
    intro st evs m hm
    cases st with
    | S_CONNECTED =>
      rcases hmm : my_gps_mainloop settod evs with ⟨res, acts, rest⟩
      have hnosleep : Action.sleepAct m ∉ acts := by
        have h := mainloop_no_sleep settod evs m
        rw [hmm] at h
        exact h
      cases res with
      | ret rc =>
        rw [show runMain settod rs (Nat.succ f) State.S_CONNECTED evs =
          acts ++ (if rc < 1 then
            Action.closeAct ::
              runMain settod rs f State.S_RECONNECT rest
          else runMain settod rs f State.S_CONNECTED rest) by
            simp only [runMain, hmm]] at hm
        rcases List.mem_append.mp hm with hm | hm
        · exact absurd hm hnosleep
        · by_cases hrc : rc < 1
          · rw [if_pos hrc] at hm
            rcases List.mem_cons.mp hm with hm | hm
            · exact Action.noConfusion hm
            · exact ih State.S_RECONNECT rest m hm
          · rw [if_neg hrc] at hm
            exact ih State.S_CONNECTED rest m hm
      | exited =>
        rw [show runMain settod rs (Nat.succ f) State.S_CONNECTED evs =
          acts by simp only [runMain, hmm]] at hm
        exact absurd hm hnosleep
      | pending =>
        rw [show runMain settod rs (Nat.succ f) State.S_CONNECTED evs =
          acts by simp only [runMain, hmm]] at hm
        exact absurd hm hnosleep
    | S_RECONNECT =>
      cases evs with
      | nil => simp [runMain] at hm
      | cons e rest =>
        cases e with
        | connectOk =>
          rcases List.mem_cons.mp hm with hm2 | hm2
          · exact Action.noConfusion hm2
          · exact ih State.S_CONNECTED rest m hm2
        | connectFail =>
          rcases List.mem_cons.mp hm with hm2 | hm2
          · exact Action.noConfusion hm2
          · rcases List.mem_cons.mp hm2 with hm3 | hm3
            · injection hm3
            · exact ih State.S_RECONNECT rest m hm3
        | timeout => simp [runMain] at hm
        | readErr rc => simp [runMain] at hm
        | report g => simp [runMain] at hm

/-- Every sleep in a startup trace lasts the configured `retry_sleep`. -/
lemma startup_loop_sleep_val (rs : Nat) (c : Nat → Bool) :
    ∀ (rem i : Nat) (rc₀ : Option ℤ) (m : Nat),
      Action.sleepAct m ∈ (startup_loop rs c rem i rc₀).2 → m = rs := by
  intro rem
  induction rem with
  | zero =>
    intro i rc₀ m hm
    simp [startup_loop] at hm
  | succ n ih =>
    intro i rc₀ m hm
    simp only [startup_loop] at hm
    by_cases hok : (0 : ℤ) ≤ attempt_reconnect (c i)
    · rw [if_pos hok] at hm
      simp only [List.mem_singleton] at hm
      exact Action.noConfusion hm
    · rw [if_neg hok] at hm
      rcases List.mem_cons.mp hm with hm2 | hm2
      · exact Action.noConfusion hm2
      · rcases List.mem_cons.mp hm2 with hm3 | hm3
        · injection hm3
        · exact ih (i + 1) (some (attempt_reconnect (c i))) m hm3

/-- C9: the sleep between failed reconnect attempts after a mid-stream
connection loss is always the RETRY_SLEEP constant of 1 second: the
endless loop's trace does not depend on the `--retry-sleep` value at all
and every sleep in it lasts RETRY_SLEEP seconds, while every sleep of the
startup phase lasts the configured `retry_sleep` seconds. -/
theorem C9_reconnect_sleep_fixed (settod : ℤ → Bool) :
    RETRY_SLEEP = 1 ∧
    (∀ (rs₁ rs₂ fuel : Nat) (st : State) (evs : List EnvEvent),
      runMain settod rs₁ fuel st evs = runMain settod rs₂ fuel st evs) ∧
    (∀ (rs fuel : Nat) (st : State) (evs : List EnvEvent) (m : Nat),
      Action.sleepAct m ∈ runMain settod rs fuel st evs →
        m = RETRY_SLEEP) ∧
    (∀ (n rs : Nat) (c : Nat → Bool) (m : Nat),
      Action.sleepAct m ∈ (startup n rs c).2 → m = rs) := by
  refine ⟨rfl, ?_, ?_, ?_⟩
  · intro rs₁ rs₂ fuel st evs
    exact runMain_rs_irrelevant settod fuel rs₁ rs₂ st evs
  · intro rs fuel st evs m hm
    exact runMain_sleep_fixed settod rs fuel st evs m hm
  · intro n rs c m hm
    exact startup_loop_sleep_val rs c n 1 none m hm

/-- Witness for C9: a failed reconnect sleeps 1 second whatever the
`--retry-sleep` value, the main loop's trace is the same for values 0 and
9, and a failed startup attempt with `--retry-sleep 5` sleeps 5
seconds. -/
theorem C9_reconnect_sleep_fixed_witness :
    (1 : Nat) = RETRY_SLEEP ∧ (5 : Nat) = 5 ∧
    runMain (fun _ => true) 0 3 State.S_RECONNECT [EnvEvent.connectFail] =
      runMain (fun _ => true) 9 3 State.S_RECONNECT
        [EnvEvent.connectFail] := by
  have h := C9_reconnect_sleep_fixed (fun _ => true)
  exact ⟨h.2.2.1 7 1 State.S_RECONNECT [EnvEvent.connectFail] 1
      (by decide),
    h.2.2.2 1 5 (fun _ => false) 5 (by decide),
    h.2.1 0 9 3 State.S_RECONNECT [EnvEvent.connectFail]⟩

end Gpsdate
